import Mathlib

/-!
Verification of the json_action dispatch registry (src/action.rs, src/error.rs).

The Rust source is shallowly embedded: `serde_json::Value` becomes the
inductive `Json`; `HashMap<String, _>` becomes an association list with
a `lookup` function (keys are unique because insertion is guarded by a
membership test, exactly as in the source); boxed closures become Lean
functions; `&mut` methods become functions returning the updated value;
a reachable Rust panic is modelled as the `none` case of an `Option`
result.  Machine integer `u64` is modelled as `Nat` (no arithmetic is
performed on it anywhere in the source).
-/

namespace JsonAction

/-- Shallow embedding of `serde_json::Value`. -/
inductive Json where
  | null : Json
  | bool (b : Bool) : Json
  | num (n : Int) : Json
  | str (s : String) : Json
  | arr (elems : List Json) : Json
  | obj (fields : List (String × Json)) : Json

/-- Embedding of `ActionError` from src/error.rs. -/
structure ActionError where
  code : String
  message : String
deriving DecidableEq

/-- Embedding of `ActionError::new`. -/
def ActionError.new (code message : String) : ActionError :=
  { code := code, message := message }

/-- Embedding of the `Action` struct: the request/reply envelope. -/
structure Action where
  name : String
  id : Nat
  token : Option String
  base64 : Option String
  payload : List (String × Json)
  result : Option Json
  errors : Option (List ActionError)

/-- Embedding of the `ActionReply` struct. -/
structure ActionReply where
  id : Nat
  name : String
  payload : List (String × Json)
  result : Option Json
  errors : List ActionError

/-- Embedding of `Action::set_result`. -/
def Action.set_result (a : Action) (res : Json) : Action :=
  { a with result := some res }

/-- Embedding of `Action::set_error`: push onto the error vector, creating
it when absent. -/
def Action.set_error (a : Action) (value : ActionError) : Action :=
  match a.errors with
  | some v => { a with errors := some (v ++ [value]) }
  | none => { a with errors := some [value] }

/-- Embedding of `Action::server_err`. -/
def Action.server_err (err : ActionError) : Action :=
  { name := "server-error", id := 0, token := none, base64 := none,
    payload := [], result := none, errors := some [err] }

/-- Embedding of `Action::into`: the body ignores `self` entirely and
returns a fresh blank envelope (with `errors: None`, unlike `server_err`). -/
def Action.into (_ : Action) : Action :=
  { name := "server-error", id := 0, token := none, base64 := none,
    payload := [], result := none, errors := none }

/-- Embedding of `Action::into_reply`. -/
def Action.into_reply (a : Action) : ActionReply :=
  match a.errors with
  | some e => { id := a.id, name := a.name, payload := a.payload,
                result := a.result, errors := e }
  | none => { id := a.id, name := a.name, payload := a.payload,
              result := a.result, errors := [] }

/-- A continuation byte `10xxxxxx` of a UTF-8 sequence. -/
def isCont (b : Nat) : Bool := 0x80 ≤ b && b ≤ 0xBF

/-- Validity of a byte sequence as UTF-8, exactly the check performed by
`std::str::from_utf8` (rejecting overlong encodings, surrogates, and
code points above U+10FFFF). -/
def utf8Valid : List Nat → Bool
  | [] => true
  | b :: rest =>
    if b ≤ 0x7F then utf8Valid rest
    else if 0xC2 ≤ b && b ≤ 0xDF then
      match rest with
      | c1 :: rest1 => isCont c1 && utf8Valid rest1
      | [] => false
    else if b == 0xE0 then
      match rest with
      | c1 :: c2 :: rest2 => (0xA0 ≤ c1 && c1 ≤ 0xBF) && isCont c2 && utf8Valid rest2
      | _ => false
    else if (0xE1 ≤ b && b ≤ 0xEC) || b == 0xEE || b == 0xEF then
      match rest with
      | c1 :: c2 :: rest2 => isCont c1 && isCont c2 && utf8Valid rest2
      | _ => false
    else if b == 0xED then
      match rest with
      | c1 :: c2 :: rest2 => (0x80 ≤ c1 && c1 ≤ 0x9F) && isCont c2 && utf8Valid rest2
      | _ => false
    else if b == 0xF0 then
      match rest with
      | c1 :: c2 :: c3 :: rest3 =>
          (0x90 ≤ c1 && c1 ≤ 0xBF) && isCont c2 && isCont c3 && utf8Valid rest3
      | _ => false
    else if 0xF1 ≤ b && b ≤ 0xF3 then
      match rest with
      | c1 :: c2 :: c3 :: rest3 => isCont c1 && isCont c2 && isCont c3 && utf8Valid rest3
      | _ => false
    else if b == 0xF4 then
      match rest with
      | c1 :: c2 :: c3 :: rest3 =>
          (0x80 ≤ c1 && c1 ≤ 0x8F) && isCont c2 && isCont c3 && utf8Valid rest3
      | _ => false
    else false

/-- Embedding of `Action::from_bytes`.  The source first runs
`std::str::from_utf8(&buf).unwrap()`: on bytes that are not valid UTF-8
the `unwrap` panics, modelled here as `none` (the source itself carries a
comment admitting this: "TODO: this can panic, so need to handle it").
Parsing of the decoded text by `serde_json::from_str`, with the error
stringified, is abstracted as the `parse` argument. -/
def Action.from_bytes (parse : List Nat → Except String Action)
    (buf : List Nat) : Option (Except String Action) :=
  if utf8Valid buf then some (parse buf) else none

/-- Lookup in an association list, the embedding of `HashMap::get`.
(Keys are unique here because every insertion in the source is guarded by
`contains_key`, so the first match is the only match.) -/
def lookup {α : Type} : List (String × α) → String → Option α
  | [], _ => none
  | (n, f) :: rest, k => if n = k then some f else lookup rest k

/-- The handler type `ActionHandler<R>`:
`Fn(&R, &Action) -> Result<serde_json::Value, ActionError>`. -/
def ActionHandler (R : Type) : Type := R → Action → Except ActionError Json

/-- Embedding of the `Manager<R>` struct, with both optional
resource-provisioning fields kept exactly as in the source. -/
structure Manager (R : Type) where
  name : String
  actions : List (String × ActionHandler R)
  resource : Option R
  gen_resource : Option (Unit → R)

/-- Embedding of `Manager::new`: shared-resource mode. -/
def Manager.new {R : Type} (name : String) (resource : R) : Manager R :=
  { name := name, actions := [], resource := some resource, gen_resource := none }

/-- Embedding of `Manager::with` (named `withGen` here because `with` is a
Lean keyword): factory-generator mode. -/
def Manager.withGen {R : Type} (name : String) (f : Unit → R) : Manager R :=
  { name := name, actions := [], resource := none, gen_resource := some f }

/-- Embedding of `Manager::action`: register a handler unless the name is
already taken, in which case the manager is left unchanged (the source
only prints a warning). -/
def Manager.action {R : Type} (m : Manager R) (name : String)
    (f : ActionHandler R) : Manager R :=
  if (lookup m.actions name).isSome then m
  else { m with actions := (name, f) :: m.actions }

/-- Embedding of `Manager::on`: per the source comment it is "identical to
action", differing only in how the closure argument is taken. -/
def Manager.on {R : Type} (m : Manager R) (name : String)
    (f : ActionHandler R) : Manager R :=
  if (lookup m.actions name).isSome then m
  else { m with actions := (name, f) :: m.actions }

/-- Embedding of `Manager::for_each`: overwrite `gen_resource`, leaving
`resource` untouched. -/
def Manager.for_each {R : Type} (m : Manager R) (f : Unit → R) : Manager R :=
  { m with gen_resource := some f }

/-- Embedding of `Manager::init`: run the setup hook on the shared
resource if present, and then also on a freshly generated resource if a
generator is present; an `Err` from the hook panics, modelled as `none`.
`init` writes no field of the manager. -/
def Manager.init {R : Type} (m : Manager R)
    (f : R → Except ActionError Unit) : Option Unit :=
  match (match m.resource with
         | some r =>
           match f r with
           | .ok _ => some ()
           | .error _ => none
         | none => some ()) with
  | none => none
  | some _ =>
    match m.gen_resource with
    | some gen =>
      match f (gen ()) with
      | .ok _ => some ()
      | .error _ => none
    | none => some ()

/-- Embedding of `serde_json::value::to_value` applied to a value that already is a
`serde_json::Value`: serialising a `Value` reproduces it and never fails,
so this is the identity wrapped in the fallible interface whose `Err`
case the caller `.expect`s on. -/
def to_value (v : Json) : Option Json := some v

/-- Embedding of `Manager::run_action`.  The result pairs the mutated
envelope with the trace of handler invocations (the name under which each
invoked handler was found); `none` models the `.expect` panic on a value
that fails re-serialisation. -/
def Manager.run_action {R : Type} (m : Manager R) (resource : R)
    (a : Action) : Option (Action × List String) :=
  match lookup m.actions a.name with
  | some func =>
    match func resource a with
    | .ok v =>
      match to_value v with
      | some v2 => some (a.set_result v2, [a.name])
      | none => none
    | .error e => some (a.set_error e, [a.name])
  | none =>
    some (a.set_error (ActionError.new (m.name ++ " - DoAction")
      "Action does NOT exist, make sure it is valid"), [])

/-- Embedding of `Manager::do_action`: generate a fresh resource if a
generator is set, otherwise use the shared resource if set, otherwise do
nothing. -/
def Manager.do_action {R : Type} (m : Manager R) (a : Action) :
    Option (Action × List String) :=
  match m.gen_resource with
  | some gen => m.run_action (gen ()) a
  | none =>
    match m.resource with
    | some r => m.run_action r a
    | none => some (a, [])

/-- Embedding of `Manager::do_action_if_exists`: if the name is registered,
first invoke the handler directly with the shared resource when one is
set, and then — on the already mutated envelope — call `run_action` with a
freshly generated resource when a generator is set; if the name is not
registered, do nothing. -/
def Manager.do_action_if_exists {R : Type} (m : Manager R) (a : Action) :
    Option (Action × List String) :=
  match lookup m.actions a.name with
  | some func =>
    match (match m.resource with
           | some r =>
             match func r a with
             | .ok v =>
               match to_value v with
               | some v2 => some (a.set_result v2, [a.name])
               | none => none
             | .error e => some (a.set_error e, [a.name])
           | none => some (a, [])) with
    | none => none
    | some p =>
      match m.gen_resource with
      | some gen =>
        match m.run_action (gen ()) p.1 with
        | some q => some (q.1, p.2 ++ q.2)
        | none => none
      | none => some p
  | none => some (a, [])

/-- The resource a call to `do_action` provisions for the handler: the
generator's output when factory mode is set (it takes precedence in the
source's if/else), else the shared resource. -/
def Manager.provision {R : Type} (m : Manager R) : Option R :=
  match m.gen_resource with
  | some gen => some (gen ())
  | none => m.resource

/-- Managers reachable through the public constructors and the mutating
registration methods of the source. -/
inductive Reachable {R : Type} : Manager R → Prop where
  | of_new : ∀ (name : String) (r : R), Reachable (Manager.new name r)
  | of_withGen : ∀ (name : String) (f : Unit → R), Reachable (Manager.withGen name f)
  | of_action : ∀ (m : Manager R) (name : String) (f : ActionHandler R),
      Reachable m → Reachable (m.action name f)
  | of_on : ∀ (m : Manager R) (name : String) (f : ActionHandler R),
      Reachable m → Reachable (m.on name f)
  | of_for_each : ∀ (m : Manager R) (f : Unit → R),
      Reachable m → Reachable (m.for_each f)

/-- The `set_result` method does not touch the `name` field. -/
theorem set_result_name (a : Action) (v : Json) : (a.set_result v).name = a.name := rfl

/-- The `set_error` method does not touch the `name` field. -/
theorem set_error_name (a : Action) (e : ActionError) : (a.set_error e).name = a.name := by
  unfold Action.set_error
  cases a.errors <;> rfl

/-- On a registered name, `run_action` succeeds and its invocation trace is
exactly one entry: the action's own name. -/
theorem run_action_registered {R : Type} (m : Manager R) (r : R) (a : Action)
    (f : ActionHandler R) (hf : lookup m.actions a.name = some f) :
    (m.run_action r a).map Prod.snd = some [a.name] := by
  simp only [Manager.run_action, hf]
  cases hc : f r a with
  | ok v => simp [hc, to_value]
  | error e => simp [hc]

/-- The `run_action` method never hits its panic branch. -/
theorem run_action_isSome {R : Type} (m : Manager R) (r : R) (a : Action) :
    (m.run_action r a).isSome = true := by
  simp only [Manager.run_action]
  cases hl : lookup m.actions a.name with
  | some f =>
    simp only [hl]
    cases hc : f r a with
    | ok v => simp [hc, to_value]
    | error e => simp [hc]
  | none => simp [hl]

/-- Every reachable manager has at least one provisioning mode set. -/
theorem reachable_mode {R : Type} {m : Manager R} (h : Reachable m) :
    m.resource.isSome = true ∨ m.gen_resource.isSome = true := by
  induction h with
  | of_new name r => exact Or.inl rfl
  | of_withGen name f => exact Or.inr rfl
  | of_action m name f _ ih =>
    unfold Manager.action
    split <;> simpa using ih
  | of_on m name f _ ih =>
    unfold Manager.on
    split <;> simpa using ih
  | of_for_each m f _ _ => exact Or.inr rfl

/-- The shared-resource step inside `do_action_if_exists` always succeeds,
invokes the handler once, and preserves the action's name. -/
theorem if_exists_shared_step {R : Type} (a : Action) (f : ActionHandler R) (r : R) :
    ∃ a2, (match f r a with
           | .ok v =>
             match to_value v with
             | some v2 => some (a.set_result v2, [a.name])
             | none => none
           | .error e => some (a.set_error e, [a.name])) = some (a2, [a.name]) ∧
      a2.name = a.name := by
  cases hc : f r a with
  | ok v => exact ⟨a.set_result v, by simp [hc, to_value], rfl⟩
  | error e => exact ⟨a.set_error e, by simp [hc], set_error_name a e⟩

/-- A handler that returns `Ok(null)`. -/
def hOk : ActionHandler Unit := fun _ _ => .ok .null

/-- A handler that returns an error. -/
def hErr : ActionHandler Unit := fun _ _ => .error (ActionError.new "E" "boom")

/-- A manager built with `new` (shared mode) and then `for_each`, so both
provisioning fields are set, with one handler under "h". -/
def dualMgr : Manager Unit :=
  ((Manager.new "m" ()).for_each (fun _ => ())).on "h" hOk

/-- A plain shared-mode manager with one handler under "get". -/
def mgrUsers : Manager Unit := (Manager.new "users" ()).on "get" hOk

/-- An envelope addressed to the registered name "h". -/
def actH : Action :=
  { name := "h", id := 1, token := none, base64 := none, payload := [],
    result := none, errors := none }

/-- An envelope addressed to the registered name "get". -/
def actGet : Action :=
  { name := "get", id := 7, token := none, base64 := none, payload := [],
    result := none, errors := none }

/-- An envelope addressed to the unregistered name "delete". -/
def actDelete : Action :=
  { name := "delete", id := 8, token := none, base64 := none, payload := [],
    result := none, errors := none }

/-- Claim C1 counterexample: on a reachable manager with both a shared
resource and a factory generator set, one call to `do_action_if_exists`
on a registered name invokes the handler twice, not exactly once. -/
theorem C1_counterexample :
    Reachable dualMgr ∧ (lookup dualMgr.actions actH.name).isSome = true ∧
    (dualMgr.do_action_if_exists actH).map Prod.snd = some ["h", "h"] ∧
    ¬ (dualMgr.do_action_if_exists actH).map Prod.snd = some [actH.name] := by
  refine ⟨?_, rfl, rfl, ?_⟩
  · exact Reachable.of_on _ _ _ (Reachable.of_for_each _ _ (Reachable.of_new "m" ()))
  · intro h
    have e1 : (dualMgr.do_action_if_exists actH).map Prod.snd = some ["h", "h"] := rfl
    rw [e1] at h
    have h2 := Option.some.inj h
    simp [actH] at h2

/-- Claim C1 (amended): on a manager with at least one provisioning mode
set and a registered action name, `do_action` invokes the handler
registered under that name exactly once and never a handler under a
different name; `do_action_if_exists` does the same when at most one mode
is set, but invokes that handler twice when both the shared resource and
the factory generator are set. -/
theorem C1_dispatch_trace {R : Type} (m : Manager R) (a : Action)
    (hreg : (lookup m.actions a.name).isSome = true)
    (hmode : m.resource.isSome = true ∨ m.gen_resource.isSome = true) :
    (m.do_action a).map Prod.snd = some [a.name] ∧
    (m.do_action_if_exists a).map Prod.snd =
      some (if m.resource.isSome && m.gen_resource.isSome
            then [a.name, a.name] else [a.name]) := by
  obtain ⟨f, hf⟩ := Option.isSome_iff_exists.mp hreg
  constructor
  · simp only [Manager.do_action]
    cases hg : m.gen_resource with
    | some gen =>
      simp only [hg]
      exact run_action_registered m (gen ()) a f hf
    | none =>
      cases hr : m.resource with
      | some r =>
        simp only [hg, hr]
        exact run_action_registered m r a f hf
      | none =>
        rcases hmode with h | h
        · rw [hr] at h; simp at h
        · rw [hg] at h; simp at h
  · simp only [Manager.do_action_if_exists, hf]
    cases hr : m.resource with
    | none =>
      simp only [hr]
      cases hg : m.gen_resource with
      | none =>
        rcases hmode with h | h
        · rw [hr] at h; simp at h
        · rw [hg] at h; simp at h
      | some gen =>
        have h3 := run_action_registered m (gen ()) a f hf
        cases hq : m.run_action (gen ()) a with
        | none => rw [hq] at h3; simp at h3
        | some q =>
          rw [hq] at h3
          simp at h3
          simp [hg, hq, h3, hr]
    | some r =>
      simp only [hr]
      obtain ⟨a2, h2, hn⟩ := if_exists_shared_step a f r
      rw [h2]
      cases hg : m.gen_resource with
      | none => simp [hg, hr]
      | some gen =>
        have hf2 : lookup m.actions a2.name = some f := by rw [hn]; exact hf
        have h3 := run_action_registered m (gen ()) a2 f hf2
        cases hq : m.run_action (gen ()) a2 with
        | none => rw [hq] at h3; simp at h3
        | some q =>
          rw [hq] at h3
          simp at h3
          simp [hg, hq, h3, hn, hr]

/-- Claim C1 witness: the amended statement evaluated on a concrete
single-mode manager and registered action. -/
theorem C1_dispatch_trace_witness :
    (mgrUsers.do_action actGet).map Prod.snd = some [actGet.name] ∧
    (mgrUsers.do_action_if_exists actGet).map Prod.snd =
      some (if mgrUsers.resource.isSome && mgrUsers.gen_resource.isSome
            then [actGet.name, actGet.name] else [actGet.name]) :=
  C1_dispatch_trace mgrUsers actGet rfl (Or.inl rfl)

/-- Claim C2: on a manager built with `new` or `with` (any reachable
manager), dispatching an action whose name is unregistered and whose
errors field is empty appends exactly one `ActionError` with code
"<manager-name> - DoAction" and the fixed message, does not set the
result, does not invoke any handler, and does not throw. -/
theorem C2_unregistered_error {R : Type} (m : Manager R) (a : Action)
    (hm : Reachable m)
    (hreg : lookup m.actions a.name = none)
    (herr : a.errors = none ∨ a.errors = some []) :
    m.do_action a =
      some ({ a with errors := some [ActionError.new (m.name ++ " - DoAction")
        "Action does NOT exist, make sure it is valid"] }, []) := by
  have hmode := reachable_mode hm
  have hrun : ∀ r : R, m.run_action r a =
      some ({ a with errors := some [ActionError.new (m.name ++ " - DoAction")
        "Action does NOT exist, make sure it is valid"] }, []) := by
    intro r
    simp only [Manager.run_action, hreg]
    rcases herr with h | h <;> simp [Action.set_error, h]
  simp only [Manager.do_action]
  cases hg : m.gen_resource with
  | some gen => simp only [hg]; exact hrun (gen ())
  | none =>
    cases hr : m.resource with
    | some r => simp only [hg, hr]; exact hrun r
    | none =>
      rcases hmode with h | h
      · rw [hr] at h; simp at h
      · rw [hg] at h; simp at h

/-- Claim C2 witness: the unregistered name "delete" on the concrete
manager "users". -/
theorem C2_unregistered_error_witness :
    mgrUsers.do_action actDelete =
      some ({ actDelete with errors := some [ActionError.new ("users" ++ " - DoAction")
        "Action does NOT exist, make sure it is valid"] }, []) :=
  C2_unregistered_error mgrUsers actDelete
    (Reachable.of_on _ _ _ (Reachable.of_new "users" ())) rfl (Or.inl rfl)

/-- Claim C3: `do_action_if_exists` on an unregistered name is a silent
no-op: the whole envelope (result and errors included) is returned
structurally unchanged, no error is appended, and no handler runs. -/
theorem C3_if_exists_noop {R : Type} (m : Manager R) (a : Action)
    (hreg : lookup m.actions a.name = none) :
    m.do_action_if_exists a = some (a, []) := by
  simp [Manager.do_action_if_exists, hreg]

/-- Claim C3 witness: the unregistered name "delete" on the concrete
manager "users". -/
theorem C3_if_exists_noop_witness :
    mgrUsers.do_action_if_exists actDelete = some (actDelete, []) :=
  C3_if_exists_noop mgrUsers actDelete rfl

/-- Claim C4 (code evaluated at the failing input): on the non-UTF-8
buffer [0xFF], `from_bytes` reaches the `unwrap` panic — modelled as
`none` — instead of returning a decode-error value, whatever the JSON
parsing stage would do. -/
theorem C4_from_bytes_panic (parse : List Nat → Except String Action) :
    Action.from_bytes parse [0xFF] = none ∧ utf8Valid [0xFF] = false := by
  constructor <;> rfl

/-- Claim C5: registering (via `action` or `on`) under a name that already
has a handler leaves the manager — in particular its handler map — fully
unchanged, so a later dispatch of that name behaves as with the original
handler; registration never fails. -/
theorem C5_duplicate_registration {R : Type} (m : Manager R) (name : String)
    (f g : ActionHandler R) (hreg : lookup m.actions name = some g) :
    m.action name f = m ∧ m.on name f = m ∧
    (∀ a : Action, (m.action name f).do_action a = m.do_action a) := by
  have h1 : m.action name f = m := by simp [Manager.action, hreg]
  have h2 : m.on name f = m := by simp [Manager.on, hreg]
  exact ⟨h1, h2, fun a => by rw [h1]⟩

/-- Claim C5 witness: re-registering "get" on the concrete manager
"users" changes nothing. -/
theorem C5_duplicate_registration_witness :
    mgrUsers.action "get" hErr = mgrUsers ∧ mgrUsers.on "get" hErr = mgrUsers ∧
    (∀ a : Action, (mgrUsers.action "get" hErr).do_action a = mgrUsers.do_action a) :=
  C5_duplicate_registration mgrUsers "get" hErr hOk rfl

/-- Claim C6: on a registered name, with `r` the resource `do_action`
provisions, a handler returning `Ok v` makes dispatch set `result` to
`some v` and leave `errors` untouched, while a handler returning `Err e`
makes dispatch append exactly `e` to `errors` (creating the list if
absent) and leave `result` untouched. -/
theorem C6_handler_outcome {R : Type} (m : Manager R) (a : Action)
    (f : ActionHandler R) (r : R)
    (hreg : lookup m.actions a.name = some f)
    (hprov : m.provision = some r) :
    m.do_action a = some ((match f r a with
      | .ok v => { a with result := some v }
      | .error e => { a with errors := some (a.errors.getD [] ++ [e]) }), [a.name]) := by
  have hrun : ∀ r' : R, m.run_action r' a = some ((match f r' a with
      | .ok v => { a with result := some v }
      | .error e => { a with errors := some (a.errors.getD [] ++ [e]) }), [a.name]) := by
    intro r'
    simp only [Manager.run_action, hreg]
    cases hc : f r' a with
    | ok v => simp [hc, to_value, Action.set_result]
    | error e =>
      simp only [hc]
      cases he : a.errors <;> simp [Action.set_error, he]
  simp only [Manager.do_action]
  simp only [Manager.provision] at hprov
  cases hg : m.gen_resource with
  | some gen =>
    rw [hg] at hprov
    simp at hprov
    simp only [hg]
    rw [← hprov]
    exact hrun (gen ())
  | none =>
    rw [hg] at hprov
    simp at hprov
    simp only [hg, hprov]
    exact hrun r

/-- Claim C6 witness: the concrete manager "users" with its "get" handler
returning `Ok(null)` sets the result to `null` and appends no error. -/
theorem C6_handler_outcome_witness :
    mgrUsers.do_action actGet = some ({ actGet with result := some Json.null }, [actGet.name]) :=
  C6_handler_outcome mgrUsers actGet hOk () rfl rfl

/-- Claim C7: for handlers whose success type is already the canonical
JSON value, dispatch is total: re-serialising the returned value always
succeeds (so the `expect` inside `run_action` is unreachable), and
neither `run_action` nor `do_action` can reach their panic branch. -/
theorem C7_dispatch_total :
    (∀ v : Json, to_value v = some v) ∧
    (∀ (R : Type) (m : Manager R) (r : R) (a : Action),
      (m.run_action r a).isSome = true) ∧
    (∀ (R : Type) (m : Manager R) (a : Action),
      (m.do_action a).isSome = true) := by
  refine ⟨fun v => rfl, fun R m r a => run_action_isSome m r a, fun R m a => ?_⟩
  simp only [Manager.do_action]
  cases hg : m.gen_resource with
  | some gen => simp only [hg]; exact run_action_isSome m (gen ()) a
  | none =>
    cases hr : m.resource with
    | some r => simp only [hg, hr]; exact run_action_isSome m r a
    | none => simp [hg, hr]

/-- Claim C8: `into_reply` preserves `id`, `name`, `payload` and `result`
field for field, and maps the errors field to itself when present and to
the empty list when absent. -/
theorem C8_into_reply_preserves (a : Action) :
    a.into_reply.id = a.id ∧ a.into_reply.name = a.name ∧
    a.into_reply.payload = a.payload ∧ a.into_reply.result = a.result ∧
    a.into_reply.errors = a.errors.getD [] := by
  unfold Action.into_reply
  cases a.errors <;> simp

/-- A reachable manager on which both provisioning fields are set:
built with `new` (shared mode) and then `for_each` (factory mode). -/
def dualPlain : Manager Unit := (Manager.new "m" ()).for_each (fun _ => ())

/-- Claim C9 counterexample: `for_each` on a `new`-constructed manager
yields a reachable manager with BOTH the shared resource and the factory
generator set, so the exactly-one-mode invariant is not preserved by
every operation. -/
theorem C9_counterexample :
    Reachable dualPlain ∧ dualPlain.resource.isSome = true ∧
    dualPlain.gen_resource.isSome = true ∧
    ¬ (dualPlain.resource.isSome = true ∧ dualPlain.gen_resource.isSome = false ∨
       dualPlain.resource.isSome = false ∧ dualPlain.gen_resource.isSome = true) := by
  refine ⟨Reachable.of_for_each _ _ (Reachable.of_new "m" ()), rfl, rfl, ?_⟩
  rintro (⟨-, h⟩ | ⟨h, -⟩) <;> simp [dualPlain, Manager.for_each, Manager.new] at h

/-- Claim C9 (amended): `new` sets exactly the shared mode and `with`
exactly the factory mode; `action` and `on` leave both provisioning
fields unchanged (and `init` and dispatch write no field at all); but
`for_each` sets the factory generator without clearing the shared
resource, so exactly-one-mode is not an invariant — what every reachable
manager does satisfy is at-least-one-mode. -/
theorem C9_mode_invariant {R : Type} (name : String) (r : R) (gf : Unit → R)
    (m : Manager R) (hm : Reachable m) :
    ((Manager.new name r).resource.isSome = true ∧
     (Manager.new name r).gen_resource.isSome = false) ∧
    ((Manager.withGen name gf).resource.isSome = false ∧
     (Manager.withGen name gf).gen_resource.isSome = true) ∧
    (∀ (n : String) (f : ActionHandler R),
      (m.action n f).resource = m.resource ∧
      (m.action n f).gen_resource = m.gen_resource) ∧
    (∀ (n : String) (f : ActionHandler R),
      (m.on n f).resource = m.resource ∧
      (m.on n f).gen_resource = m.gen_resource) ∧
    ((m.for_each gf).resource = m.resource ∧
     (m.for_each gf).gen_resource = some gf) ∧
    (m.resource.isSome = true ∨ m.gen_resource.isSome = true) := by
  refine ⟨⟨rfl, rfl⟩, ⟨rfl, rfl⟩, ?_, ?_, ⟨rfl, rfl⟩, reachable_mode hm⟩
  · intro n f
    constructor <;> (unfold Manager.action; split <;> rfl)
  · intro n f
    constructor <;> (unfold Manager.on; split <;> rfl)

/-- Claim C9 witness: the amended statement applied to the concrete
dual-mode manager, whose reachability discharges the hypothesis. -/
theorem C9_mode_invariant_witness :
    Reachable dualPlain ∧
    (dualPlain.resource.isSome = true ∨ dualPlain.gen_resource.isSome = true) :=
  have hreach : Reachable dualPlain :=
    Reachable.of_for_each _ _ (Reachable.of_new "m" ())
  ⟨hreach, (C9_mode_invariant "m" () (fun _ => ()) dualPlain hreach).2.2.2.2.2⟩

/-- Claim C10: `Action::into` ignores its argument entirely and returns
the fixed blank "server-error" envelope with no errors — unlike
`server_err`, which carries the supplied error in its errors list. -/
theorem C10_into_discards (a : Action) :
    a.into = { name := "server-error", id := 0, token := none, base64 := none,
               payload := [], result := none, errors := none } ∧
    (∀ b : Action, a.into = b.into) ∧
    (∀ e : ActionError, (Action.server_err e).errors = some [e]) :=
  ⟨rfl, fun _ => rfl, fun _ => rfl⟩

end JsonAction
